import Mathlib

/-!
Verification of the JSON-RPC client message model (`src/lib/src/lib.rs`).

The Rust source defines the wire message shapes `Id`, `Request`, `Response`,
`ResponsePayload`, `JsonRpcError` and the unified error type `Error<C>`, and
obtains their (de)serialization from `serde` derives:

  * `Id` is `#[serde(untagged)]`: it encodes as a bare JSON integer or string,
    and decoding first tries the `Number(i64)` variant, then `String`.
  * `Request` derives `Serialize` only; `serde_json::to_string` emits the
    struct fields in declaration order (`id`, `jsonrpc`, `method`, `params`)
    in compact form.
  * `Response` derives `Deserialize` with `#[serde(flatten)]` on its
    `payload` field: the keys `id` and `jsonrpc` are consumed by name (a
    duplicate of either is an error), every remaining key is buffered, and
    `ResponsePayload` — an externally tagged enum renamed to lowercase —
    is decoded through `FlatMapDeserializer`, whose `deserialize_enum`
    scans the buffer for the first entry whose key is a variant name
    (`result` or `error`), decodes that variant from its value, and
    silently drops every other buffered entry; only when no entry is
    recognized does it fail. (This is why `deny_unknown_fields` cannot be
    combined with `flatten`: unknown keys are ignored, and an object
    holding both `result` and `error` decodes from whichever comes first.)
  * `Response.jsonrpc` is a borrowed `&'static str`: `serde_json` can
    deserialize a `&str` field only by borrowing the input slice verbatim,
    which is possible exactly when the string literal contains no escape
    sequences; a version string holding a quote, a backslash, or a control
    character cannot be written without escapes and so fails to decode.
  * `JsonRpcError` derives `Deserialize` with serde defaults: fields `code`
    (an `i64`) and `message` (a string) are required, duplicates are an
    error, and unknown keys inside the error object are ignored.

We embed JSON values as an inductive `Json` (numbers as unbounded integers
with the `i64` range checks made explicit where Rust uses `i64`), translate
each derive into an explicit Lean function, and model the fragment of
`serde_json`'s text layer the tests exercise: a compact renderer and a
recursive-descent parser (structural on a fuel counter; integer numerals and
the simple escapes — `\uXXXX` escapes and float literals do not occur in any
wire string of this development).
-/

namespace JsonRpc

/-- A JSON value. Numbers are modelled as unbounded integers; every place the
Rust code requires an `i64` performs an explicit range check. -/
inductive Json where
  | null
  | bool (b : Bool)
  | num (n : Int)
  | str (s : String)
  | arr (elems : List Json)
  | obj (members : List (String × Json))

/-- `i64::MIN`. -/
def i64Min : Int := -9223372036854775808

/-- `i64::MAX`. -/
def i64Max : Int := 9223372036854775807

/-- `n` fits in a Rust `i64`. -/
def fitsI64 (n : Int) : Prop := i64Min ≤ n ∧ n ≤ i64Max

instance (n : Int) : Decidable (fitsI64 n) := by
  unfold fitsI64; infer_instance

/-- `pub enum Id { Number(i64), String(String) }` (lib.rs:11-16). -/
inductive Id where
  | Number (n : Int)
  | String (s : String)
deriving DecidableEq

/-- The `i64` payload of `Id.Number` is in range; trivial for `Id.String`.
Every `Id` a Rust program can hold satisfies this. -/
def Id.wf : Id → Prop
  | .Number n => fitsI64 n
  | .String _ => True

instance : (i : Id) → Decidable i.wf
  | .Number n => by unfold Id.wf; infer_instance
  | .String _ => by unfold Id.wf; exact inferInstanceAs (Decidable True)

/-- `pub const V1: &'static str = "1.0"` (lib.rs:8). -/
def V1 : String := "1.0"

/-- `pub const V2: &'static str = "2.0"` (lib.rs:9). -/
def V2 : String := "2.0"

/-- `pub struct Request { id, jsonrpc, method, params }` (lib.rs:18-24). -/
structure Request where
  id : Id
  jsonrpc : String
  method : String
  params : List Json

/-- `Request::new_v2` (lib.rs:27-34): placeholder id 0, version `V2`. -/
def Request.new_v2 (method : String) (params : List Json) : Request :=
  { id := Id.Number 0, jsonrpc := V2, method := method, params := params }

/-- `pub struct JsonRpcError { code: i64, message: String }` (lib.rs:79-83). -/
structure JsonRpcError where
  code : Int
  message : String
deriving DecidableEq

/-- `pub enum ResponsePayload { Result(serde_json::Value), Error(JsonRpcError) }`
(lib.rs:63-68). -/
inductive ResponsePayload where
  | Result (value : Json)
  | Error (e : JsonRpcError)

/-- `pub struct Response { id, jsonrpc, #[serde(flatten)] payload }`
(lib.rs:37-43). -/
structure Response where
  id : Id
  jsonrpc : String
  payload : ResponsePayload

/-- `Response::new_v2_result` (lib.rs:46-52). -/
def Response.new_v2_result (id : Id) (result : Json) : Response :=
  { id := id, jsonrpc := V2, payload := ResponsePayload.Result result }

/-- `Response::new_v2_error` (lib.rs:54-60). -/
def Response.new_v2_error (id : Id) (error : JsonRpcError) : Response :=
  { id := id, jsonrpc := V2, payload := ResponsePayload.Error error }

/-- `From<ResponsePayload> for Result<serde_json::Value, JsonRpcError>`
(lib.rs:70-77): a total match on the two variants. -/
def ResponsePayload.intoResult : ResponsePayload → Except JsonRpcError Json
  | .Result value => Except.ok value
  | .Error e => Except.error e

/-- A stand-in for `serde_json::Error`: all the claims use of it is its
`Display` rendering, so we keep just that string. -/
structure SerdeError where
  rendered : String

/-- `pub enum Error<C> { Client(C), JsonRpc(JsonRpcError), Serde(..) }`
(lib.rs:97-102). -/
inductive Error (C : Type) where
  | Client (c : C)
  | JsonRpc (e : JsonRpcError)
  | Serde (s : SerdeError)

/-- `impl Display for JsonRpcError` (lib.rs:85-93). -/
def JsonRpcError.display (e : JsonRpcError) : String :=
  "JSON-RPC request failed with code " ++ toString e.code ++ ": " ++ e.message

/-- `impl<C: Display> Display for Error<C>` (lib.rs:104-115): each variant
delegates to the inner error's own rendering. `showC` stands for the
`C: Display` bound. -/
def Error.display {C : Type} (showC : C → String) : Error C → String
  | .Client c => showC c
  | .JsonRpc e => e.display
  | .Serde s => s.rendered

/-- `From<serde_json::Error> for Error<C>` (lib.rs:117-121). -/
def Error.fromSerde {C : Type} (s : SerdeError) : Error C := Error.Serde s

/-- `From<JsonRpcError> for Error<C>` (lib.rs:123-127). -/
def Error.fromJsonRpc {C : Type} (e : JsonRpcError) : Error C := Error.JsonRpc e

/-! ### The text layer: `serde_json::to_string`'s compact renderer -/

/-- Four lowercase hex digits, as `serde_json` writes control characters. -/
def hex4 (n : Nat) : String :=
  let d (k : Nat) : Char :=
    if k < 10 then Char.ofNat (48 + k) else Char.ofNat (87 + k)
  String.mk [d (n / 4096 % 16), d (n / 256 % 16), d (n / 16 % 16), d (n % 16)]

/-- How `serde_json` escapes one character inside a string literal: the two
mandatory escapes, the short forms for the common control characters, `\uXXXX`
for the remaining controls, everything else verbatim. -/
def escapeChar (c : Char) : String :=
  if c = '"' then "\\\""
  else if c = '\\' then "\\\\"
  else if c = Char.ofNat 8 then "\\b"
  else if c = '\t' then "\\t"
  else if c = '\n' then "\\n"
  else if c = Char.ofNat 12 then "\\f"
  else if c = '\r' then "\\r"
  else if c.toNat < 32 then "\\u" ++ hex4 c.toNat
  else String.singleton c

/-- A JSON string literal: quotes around the escaped characters. -/
def renderString (s : String) : String :=
  "\"" ++ String.join (s.toList.map escapeChar) ++ "\""

mutual

/-- Compact rendering of a JSON value (`serde_json::to_string`): no
whitespace, object members in the order held. -/
def Json.render : Json → String
  | .null => "null"
  | .bool b => if b then "true" else "false"
  | .num n => toString n
  | .str s => renderString s
  | .arr elems => "[" ++ renderElems elems ++ "]"
  | .obj members => "\x7b" ++ renderMembers members ++ "\x7d"

/-- Comma-separated array elements. -/
def renderElems : List Json → String
  | [] => ""
  | [v] => v.render
  | v :: rest => v.render ++ "," ++ renderElems rest

/-- Comma-separated `"key":value` object members. -/
def renderMembers : List (String × Json) → String
  | [] => ""
  | [(k, v)] => renderString k ++ ":" ++ v.render
  | (k, v) :: rest => renderString k ++ ":" ++ v.render ++ "," ++ renderMembers rest

end

/-! ### Serialization of `Id` and `Request` -/

/-- `#[serde(untagged)]` serialization of `Id`: a bare number or string. -/
def Id.toJson : Id → Json
  | .Number n => Json.num n
  | .String s => Json.str s

/-- The derived `Serialize` for `Request`: an object holding the four fields
in declaration order (lib.rs:18-24). -/
def Request.toJson (r : Request) : Json :=
  Json.obj
    [("id", r.id.toJson), ("jsonrpc", Json.str r.jsonrpc),
     ("method", Json.str r.method), ("params", Json.arr r.params)]

/-- `serde_json::to_string(&request)`. -/
def Request.encode (r : Request) : String := r.toJson.render

/-! ### Deserialization

serde's derived map visitors: a required field is matched by key, seeing the
same known key twice is a `duplicate field` error, and a missing one is a
`missing field` error. `getUnique` folds the three outcomes into an
`Option`: `some` exactly when the key appears once. -/

/-- The value of the unique member named `key`; `none` when the key is
missing or duplicated (both are decode errors wherever this is used). -/
def getUnique (members : List (String × Json)) (key : String) : Option Json :=
  match members.filter (fun kv => kv.1 == key) with
  | [kv] => some kv.2
  | _ => none

/-- Decode a Rust `String` field: only a JSON string is accepted. -/
def asStr : Json → Option String
  | .str s => some s
  | _ => none

/-- A character `serde_json` may leave unescaped inside a string literal:
everything except the quote, the backslash, and the control characters. -/
def borrowableChar (c : Char) : Bool :=
  c ≠ '"' && c ≠ '\\' && 32 ≤ c.toNat

/-- Decode a Rust borrowed `&str` field (`jsonrpc: &'static str`,
lib.rs:40): `serde_json` hands the field a borrowed slice of the input
only when the literal carries no escape sequences, so only strings
representable without escapes decode. (At this value level we identify a
string with its escape-free literal; a wire text spelling an ordinary
character through a redundant escape is not distinguished.) -/
def asBorrowedStr : Json → Option String
  | .str s => if s.toList.all borrowableChar then some s else none
  | _ => none

/-- Decode a Rust `i64` field: a JSON integer within the `i64` range. -/
def asI64 : Json → Option Int
  | .num n => if fitsI64 n then some n else none
  | _ => none

/-- The derived untagged `Deserialize` for `Id` (lib.rs:11-16): try
`Number(i64)` first, then `String`; anything else fails. -/
def Id.fromJson : Json → Option Id
  | .num n => if fitsI64 n then some (Id.Number n) else none
  | .str s => some (Id.String s)
  | _ => none

/-- The derived `Deserialize` for `JsonRpcError` (lib.rs:79-83): required
fields `code: i64` and `message: String`; unknown keys are ignored (serde's
default). -/
def JsonRpcError.fromJson : Json → Option JsonRpcError
  | .obj members =>
    (getUnique members "code").bind fun codeJ =>
    (asI64 codeJ).bind fun code =>
    (getUnique members "message").bind fun msgJ =>
    (asStr msgJ).map fun message => { code := code, message := message }
  | _ => none

/-- The derived `Deserialize` for `ResponsePayload` (lib.rs:63-68) as driven
through `#[serde(flatten)]`: `FlatMapDeserializer::deserialize_enum` scans
the buffered leftover members for the first one whose key is a variant name
(`result` or `error` after `rename_all = "lowercase"`), decodes that
variant from its value, and ignores every other buffered member; with no
recognized member it fails (`no variant of enum found in flattened data`). -/
def ResponsePayload.fromMembers : List (String × Json) → Option ResponsePayload
  | [] => none
  | (k, v) :: rest =>
    if k = "result" then some (ResponsePayload.Result v)
    else if k = "error" then (JsonRpcError.fromJson v).map ResponsePayload.Error
    else ResponsePayload.fromMembers rest

/-- The members left for the flattened `payload` field after the named
fields `id` and `jsonrpc` of `Response` are consumed. -/
def restMembers (members : List (String × Json)) : List (String × Json) :=
  members.filter (fun kv => ¬(kv.1 == "id" || kv.1 == "jsonrpc"))

/-- A key the flattened `ResponsePayload` enum recognizes as one of its
variant names. -/
def recognizedKey (k : String) : Bool := k == "result" || k == "error"

/-- A top-level key the derived `Response` decoder gives meaning to; every
other key is buffered by `flatten` and then ignored by the enum scan. -/
def knownKey (k : String) : Bool := k == "id" || k == "jsonrpc" || recognizedKey k

/-- The derived `Deserialize` for `Response` (lib.rs:37-43): the named
fields `id` and `jsonrpc` are decoded by key — `jsonrpc` with borrowed
`&str` semantics — and every other member feeds the flattened
`ResponsePayload`. -/
def Response.fromJson : Json → Option Response
  | .obj members =>
    (getUnique members "id").bind fun idJ =>
    (Id.fromJson idJ).bind fun i =>
    (getUnique members "jsonrpc").bind fun verJ =>
    (asBorrowedStr verJ).bind fun ver =>
    (ResponsePayload.fromMembers (restMembers members)).map fun payload =>
      { id := i, jsonrpc := ver, payload := payload }
  | _ => none

/-- Modelled from the spec: the source derives only `Serialize` for
`Request` (lib.rs:18), so no `Request` decoder exists under `src/`; the
spec's round-trip property (§8) and wire shape (§6) require one. Following
§6: an object with keys `id` (integer or string), `jsonrpc` (literal
`"1.0"` or `"2.0"`), `method` (string), `params` (array of values). -/
def Request.fromJson : Json → Option Request
  | .obj members =>
    (getUnique members "id").bind fun idJ =>
    (Id.fromJson idJ).bind fun i =>
    (getUnique members "jsonrpc").bind fun verJ =>
    (asStr verJ).bind fun ver =>
    (if ver = V1 ∨ ver = V2 then some ver else none).bind fun ver =>
    (getUnique members "method").bind fun mJ =>
    (asStr mJ).bind fun method =>
    (getUnique members "params").bind fun pJ =>
    (match pJ with
      | Json.arr elems => some elems
      | _ => none).map fun params =>
      { id := i, jsonrpc := ver, method := method, params := params }
  | _ => none

/-! ### The text layer: `serde_json::from_str`'s parser

Recursive descent over the character list, structural on a fuel counter so
totality is immediate. It covers the grammar fragment the wire strings of
this development use: objects, arrays, strings with the simple escapes,
integer numerals, `true`/`false`/`null`, and insignificant whitespace.
(`\uXXXX` escapes and float literals never occur in those strings.) -/

/-- JSON insignificant whitespace. -/
def isWsChar (c : Char) : Bool := c == ' ' || c == '\t' || c == '\n' || c == '\r'

/-- Drop leading whitespace. -/
def dropWs : List Char → List Char
  | c :: cs => if isWsChar c then dropWs cs else c :: cs
  | [] => []

/-- An ASCII decimal digit. -/
def isDigitChar (c : Char) : Bool := 48 ≤ c.toNat && c.toNat ≤ 57

/-- Split off the leading run of digits. -/
def spanDigits : List Char → List Char × List Char
  | c :: cs =>
    if isDigitChar c then
      let (ds, rest) := spanDigits cs
      (c :: ds, rest)
    else ([], c :: cs)
  | [] => ([], [])

/-- The value of a digit run. -/
def digitsVal (ds : List Char) : Nat :=
  ds.foldl (fun acc c => acc * 10 + (c.toNat - 48)) 0

/-- The character named by a simple escape (`\uXXXX` is outside the modelled
fragment). -/
def simpleEscape : Char → Option Char
  | '"' => some '"'
  | '\\' => some '\\'
  | '/' => some '/'
  | 'b' => some (Char.ofNat 8)
  | 'f' => some (Char.ofNat 12)
  | 'n' => some '\n'
  | 'r' => some '\r'
  | 't' => some '\t'
  | _ => none

/-- The body of a string literal after its opening quote: the decoded text
and the input past the closing quote. -/
def scanString : List Char → Option (String × List Char)
  | [] => none
  | c :: cs =>
    if c = '"' then some ("", cs)
    else if c = '\\' then
      match cs with
      | [] => none
      | e :: cs2 =>
        match simpleEscape e with
        | some d => (scanString cs2).map fun p => (String.singleton d ++ p.1, p.2)
        | none => none
    else (scanString cs).map fun p => (String.singleton c ++ p.1, p.2)

/-- An integer numeral: an optional minus sign then a nonempty digit run. -/
def scanNumber (cs : List Char) : Option (Int × List Char) :=
  match cs with
  | '-' :: cs1 =>
    match spanDigits cs1 with
    | ([], _) => none
    | (ds, rest) => some (-(digitsVal ds : Int), rest)
  | _ =>
    match spanDigits cs with
    | ([], _) => none
    | (ds, rest) => some ((digitsVal ds : Int), rest)

mutual

/-- One JSON value and the remaining input. Fuel-structural. -/
def scanValue : Nat → List Char → Option (Json × List Char)
  | 0, _ => none
  | fuel + 1, input =>
    match dropWs input with
    | [] => none
    | c :: cs =>
      if c = '"' then (scanString cs).map fun p => (Json.str p.1, p.2)
      else if c = '[' then
        match dropWs cs with
        | ']' :: rest => some (Json.arr [], rest)
        | cs1 => (scanElems fuel cs1).map fun p => (Json.arr p.1, p.2)
      else if c = '\x7b' then
        match dropWs cs with
        | '\x7d' :: rest => some (Json.obj [], rest)
        | cs1 => (scanMembers fuel cs1).map fun p => (Json.obj p.1, p.2)
      else if c = 't' then
        match cs with
        | 'r' :: 'u' :: 'e' :: rest => some (Json.bool true, rest)
        | _ => none
      else if c = 'f' then
        match cs with
        | 'a' :: 'l' :: 's' :: 'e' :: rest => some (Json.bool false, rest)
        | _ => none
      else if c = 'n' then
        match cs with
        | 'u' :: 'l' :: 'l' :: rest => some (Json.null, rest)
        | _ => none
      else (scanNumber (c :: cs)).map fun p => (Json.num p.1, p.2)

/-- A nonempty comma-separated element list and the input past the `]`. -/
def scanElems : Nat → List Char → Option (List Json × List Char)
  | 0, _ => none
  | fuel + 1, input =>
    (scanValue fuel input).bind fun (v, rest) =>
      match dropWs rest with
      | ',' :: rest1 => (scanElems fuel rest1).map fun p => (v :: p.1, p.2)
      | ']' :: rest1 => some ([v], rest1)
      | _ => none

/-- A nonempty comma-separated member list and the input past the brace
closing the object. -/
def scanMembers : Nat → List Char → Option (List (String × Json) × List Char)
  | 0, _ => none
  | fuel + 1, input =>
    match dropWs input with
    | '"' :: cs =>
      (scanString cs).bind fun (key, rest) =>
        match dropWs rest with
        | ':' :: rest1 =>
          (scanValue fuel rest1).bind fun (v, rest2) =>
            match dropWs rest2 with
            | ',' :: rest3 => (scanMembers fuel rest3).map fun p => ((key, v) :: p.1, p.2)
            | '\x7d' :: rest3 => some ([(key, v)], rest3)
            | _ => none
        | _ => none
    | _ => none

end

/-- `serde_json::from_str`'s text layer: one value, then only whitespace. -/
def parseJson (s : String) : Option Json :=
  let cs := s.toList
  (scanValue (2 * cs.length + 2) cs).bind fun (v, rest) =>
    match dropWs rest with
    | [] => some v
    | _ => none

/-- `serde_json::from_str::<Response>` (as in the tests, lib.rs:146/164). -/
def Response.decode (s : String) : Option Response :=
  (parseJson s).bind Response.fromJson

/-- `key` occurs among the members of a wire object. -/
def hasKey (members : List (String × Json)) (key : String) : Prop :=
  ∃ v, (key, v) ∈ members

/-! ### Theorems -/

/-- C3: encoding `Request::new_v2("subtract", [42, 23])`, which carries the
default id 0, produces exactly the compact wire string
`{"id":0,"jsonrpc":"2.0","method":"subtract","params":[42,23]}`
(the golden output of `tests::serialize_request`, lib.rs:169-179). -/
theorem serialize_request_golden :
    (Request.new_v2 "subtract" [Json.num 42, Json.num 23]).encode =
      "\x7b\"id\":0,\"jsonrpc\":\"2.0\",\"method\":\"subtract\",\"params\":[42,23]\x7d" := by
  rfl

/-- C5: the conversion from `ResponsePayload` into
`Result<serde_json::Value, JsonRpcError>` (lib.rs:70-77) is a total match
that is variant-faithful: every `Result v` maps to success with `v` and
every `Error e` maps to failure with `e`. -/
theorem payload_into_result_total :
    (∀ v, (ResponsePayload.Result v).intoResult = Except.ok v) ∧
    (∀ e, (ResponsePayload.Error e).intoResult = Except.error e) :=
  ⟨fun _ => rfl, fun _ => rfl⟩

/-- C6: decoding the wire string
`{"jsonrpc":"2.0","error":{"code":-32601,"message":"Method not found"},"id":"1"}`
succeeds with id `Id::String("1")` and an error payload carrying code
-32601 and message "Method not found" (`tests::deserialize_error_response`,
lib.rs:142-158). -/
theorem deserialize_error_response_golden :
    Response.decode
        "\x7b\"jsonrpc\":\"2.0\",\"error\":\x7b\"code\":-32601,\"message\":\"Method not found\"\x7d,\"id\":\"1\"\x7d" =
      some { id := Id.String "1", jsonrpc := "2.0",
             payload := ResponsePayload.Error { code := -32601, message := "Method not found" } } := by
  rfl

/-- C7: `Request::new_v2(m, p)` (lib.rs:27-34) performs no validation of the
method string: for every `m` and every params sequence `p` it returns a
request with the placeholder id `Number 0`, the recognized version constant
`V2 = "2.0"`, method exactly `m`, and params exactly `p`. -/
theorem new_v2_fields (m : String) (p : List Json) :
    (Request.new_v2 m p).id = Id.Number 0 ∧
    (Request.new_v2 m p).jsonrpc = V2 ∧
    V2 = "2.0" ∧
    (Request.new_v2 m p).method = m ∧
    (Request.new_v2 m p).params = p :=
  ⟨rfl, rfl, rfl, rfl, rfl⟩

/-- C8: the `Display` rendering of `Error<C>` (lib.rs:104-115) delegates to
the inner error in all three variants, adding no wrapping text: `Client c`
renders as `c` does, `JsonRpc e` as `e` does, `Serde s` as `s` does. -/
theorem error_display_delegates {C : Type} (showC : C → String)
    (c : C) (e : JsonRpcError) (s : SerdeError) :
    Error.display showC (Error.Client c) = showC c ∧
    Error.display showC (Error.JsonRpc e) = e.display ∧
    Error.display showC (Error.Serde s) = s.rendered :=
  ⟨rfl, rfl, rfl⟩

/-- C4: decoding an `Id` preserves the numeric-versus-string distinction: a
JSON integer (in `i64` range, as every Rust-representable id is) decodes to
`Number` with that integer, a JSON string decodes to `String` with that
string, and in particular the integer `1` never decodes as the string `"1"`
nor the string `"1"` as the number `1`. -/
theorem id_decoding_fidelity :
    (∀ n : Int, fitsI64 n → Id.fromJson (Json.num n) = some (Id.Number n)) ∧
    (∀ s : String, Id.fromJson (Json.str s) = some (Id.String s)) ∧
    Id.fromJson (Json.num 1) ≠ some (Id.String "1") ∧
    Id.fromJson (Json.str "1") ≠ some (Id.Number 1) := by
  refine ⟨fun n h => ?_, fun s => rfl, by decide, by decide⟩
  simp [Id.fromJson, h]

/-- Witness for C4: instantiated at the integer id `1` and the string id
`"1"`. -/
theorem id_decoding_fidelity_witness :
    Id.fromJson (Json.num 1) = some (Id.Number 1) ∧
    Id.fromJson (Json.str "1") = some (Id.String "1") :=
  ⟨id_decoding_fidelity.1 1 (by decide), id_decoding_fidelity.2.1 "1"⟩

/-- C2: for every valid `Request` — any representable id, any method, any
params, either recognized version constant — decoding the encoding gives
back the request field-by-field. The decoder is `Request.fromJson`,
modelled from the spec (§6, §8) since the source derives only `Serialize`
for `Request`. -/
theorem request_roundtrip (r : Request) (hid : r.id.wf)
    (hver : r.jsonrpc = V1 ∨ r.jsonrpc = V2) :
    Request.fromJson r.toJson = some r := by
  obtain ⟨i, ver, m, p⟩ := r
  have hv : (if ver = V1 ∨ ver = V2 then some ver else none) = some ver :=
    if_pos hver
  cases i with
  | Number n =>
    simp only [Id.wf] at hid
    simp [Request.fromJson, Request.toJson, getUnique, Id.toJson, Id.fromJson,
      asStr, List.filter, hid, hv]
  | String s =>
    simp [Request.fromJson, Request.toJson, getUnique, Id.toJson, Id.fromJson,
      asStr, List.filter, hv]

/-- Witness for C2: the round trip at
`Request::new_v2("subtract", [42, 23])`. -/
theorem request_roundtrip_witness :
    Request.fromJson (Request.new_v2 "subtract" [Json.num 42, Json.num 23]).toJson =
      some (Request.new_v2 "subtract" [Json.num 42, Json.num 23]) :=
  request_roundtrip _ (by decide) (Or.inr rfl)

/-- Counterexample to C9 as stated: `jsonrpc` is a borrowed `&'static str`,
so a version string that cannot be written without escape sequences — here
one containing a quote — fails to decode, against the claim's "for every
string s". -/
theorem response_version_escape_rejected :
    Response.fromJson
        (Json.obj [("jsonrpc", Json.str "3.0\""), ("result", Json.num 19),
          ("id", Json.num 1)]) = none := by
  rfl

/-- C9 (amended): `Response` decoding does not restrict the `jsonrpc` field
to the two recognized constants, but only to what a borrowed `&str` can
hold: for every string `s` representable without escape sequences (no
quote, backslash, or control character), an object carrying version `s`, a
well-formed id, and a single `result` (or a single well-formed `error`)
decodes successfully, carrying `s` as its version. -/
theorem response_version_any_borrowable (s : String)
    (hs : s.toList.all borrowableChar = true) (i : Id) (hi : i.wf)
    (v : Json) (code : Int) (hc : fitsI64 code) (msg : String) :
    Response.fromJson
        (Json.obj [("jsonrpc", Json.str s), ("result", v), ("id", i.toJson)]) =
      some { id := i, jsonrpc := s, payload := ResponsePayload.Result v } ∧
    Response.fromJson
        (Json.obj [("jsonrpc", Json.str s),
          ("error", Json.obj [("code", Json.num code), ("message", Json.str msg)]),
          ("id", i.toJson)]) =
      some { id := i, jsonrpc := s,
             payload := ResponsePayload.Error { code := code, message := msg } } := by
  have hAB : asBorrowedStr (Json.str s) = some s := by
    show (if s.toList.all borrowableChar = true then some s else none) = some s
    rw [hs]
    rfl
  cases i with
  | Number n =>
    simp only [Id.wf] at hi
    constructor <;>
      simp [Response.fromJson, getUnique, restMembers, ResponsePayload.fromMembers,
        JsonRpcError.fromJson, Id.toJson, Id.fromJson, asStr, asI64,
        List.filter, hi, hc, hAB]
  | String t =>
    constructor <;>
      simp [Response.fromJson, getUnique, restMembers, ResponsePayload.fromMembers,
        JsonRpcError.fromJson, Id.toJson, Id.fromJson, asStr, asI64,
        List.filter, hc, hAB]

/-- Witness for C9: version `"3.0"` — not a recognized constant, but
escape-free — decodes in both a result and an error response. -/
theorem response_version_any_borrowable_witness :
    Response.fromJson
        (Json.obj [("jsonrpc", Json.str "3.0"), ("result", Json.num 19),
          ("id", (Id.Number 1).toJson)]) =
      some { id := Id.Number 1, jsonrpc := "3.0",
             payload := ResponsePayload.Result (Json.num 19) } ∧
    Response.fromJson
        (Json.obj [("jsonrpc", Json.str "3.0"),
          ("error", Json.obj [("code", Json.num (-32601)), ("message", Json.str "x")]),
          ("id", (Id.Number 1).toJson)]) =
      some { id := Id.Number 1, jsonrpc := "3.0",
             payload := ResponsePayload.Error { code := -32601, message := "x" } } :=
  response_version_any_borrowable "3.0" (by decide) (Id.Number 1) (by decide)
    (Json.num 19) (-32601) (by decide) "x"

/-- Soundness of the flattened payload decoder's scan: a successful decode
took its payload from some `result` or `error` member of the scanned
list. -/
theorem fromMembers_sound :
    ∀ (l : List (String × Json)) (p : ResponsePayload),
      ResponsePayload.fromMembers l = some p →
      (∃ v, ("result", v) ∈ l ∧ p = ResponsePayload.Result v) ∨
      (∃ ej err, ("error", ej) ∈ l ∧ JsonRpcError.fromJson ej = some err ∧
        p = ResponsePayload.Error err)
  | [], _, h => by simp [ResponsePayload.fromMembers] at h
  | (k, v) :: rest, p, h => by
    by_cases hr : k = "result"
    · subst hr
      rw [ResponsePayload.fromMembers, if_pos rfl] at h
      exact Or.inl ⟨v, List.mem_cons_self _ _, (Option.some.inj h).symm⟩
    · by_cases he : k = "error"
      · subst he
        rw [ResponsePayload.fromMembers, if_neg (by decide), if_pos rfl] at h
        obtain ⟨err, herr, rfl⟩ := Option.map_eq_some'.mp h
        exact Or.inr ⟨v, err, List.mem_cons_self _ _, herr, rfl⟩
      · rw [ResponsePayload.fromMembers, if_neg hr, if_neg he] at h
        rcases fromMembers_sound rest p h with ⟨v', hv', hp⟩ | ⟨ej, err, hej, herr, hp⟩
        · exact Or.inl ⟨v', List.mem_cons_of_mem _ hv', hp⟩
        · exact Or.inr ⟨ej, err, List.mem_cons_of_mem _ hej, herr, hp⟩

/-- The scan fails exactly when it never meets a `result` or `error` key. -/
theorem fromMembers_none_of_unrecognized :
    ∀ (l : List (String × Json)),
      (∀ kv ∈ l, kv.1 ≠ "result" ∧ kv.1 ≠ "error") →
      ResponsePayload.fromMembers l = none
  | [], _ => rfl
  | (k, v) :: rest, h => by
    have hk := h (k, v) (List.mem_cons_self _ _)
    rw [ResponsePayload.fromMembers, if_neg hk.1, if_neg hk.2]
    exact fromMembers_none_of_unrecognized rest
      (fun kv hkv => h kv (List.mem_cons_of_mem _ hkv))

/-- In a member list with pairwise-distinct keys — a JSON object — a key
determines its value. -/
theorem nodup_keys_unique :
    ∀ (l : List (String × Json)), (l.map Prod.fst).Nodup →
      ∀ (k : String) (a b : Json), (k, a) ∈ l → (k, b) ∈ l → a = b
  | [], _, _, _, _, ha, _ => absurd ha (List.not_mem_nil _)
  | (k0, v0) :: rest, hnd, k, a, b, ha, hb => by
    rw [List.map_cons, List.nodup_cons] at hnd
    rcases List.mem_cons.mp ha with ha0 | ha1 <;>
      rcases List.mem_cons.mp hb with hb0 | hb1
    · rw [Prod.mk.injEq] at ha0 hb0
      rw [ha0.2, hb0.2]
    · exact absurd (List.mem_map_of_mem Prod.fst hb1)
        ((Prod.mk.injEq .. ▸ ha0 : k = k0 ∧ a = v0).1 ▸ hnd.1)
    · exact absurd (List.mem_map_of_mem Prod.fst ha1)
        ((Prod.mk.injEq .. ▸ hb0 : k = k0 ∧ b = v0).1 ▸ hnd.1)
    · exact nodup_keys_unique rest hnd.2 k a b ha1 hb1

/-- Distinctness of keys survives into the leftover members. -/
theorem restMembers_keys_nodup (members : List (String × Json))
    (hnd : (members.map Prod.fst).Nodup) :
    ((restMembers members).map Prod.fst).Nodup :=
  hnd.sublist (List.Sublist.map Prod.fst (List.filter_sublist members))

/-- A successfully decoded `Response` determines a successful payload decode
from the leftover members. -/
theorem response_fromJson_payload (members : List (String × Json))
    (resp : Response) (h : Response.fromJson (Json.obj members) = some resp) :
    ResponsePayload.fromMembers (restMembers members) = some resp.payload := by
  simp only [Response.fromJson, Option.bind_eq_some, Option.map_eq_some'] at h
  obtain ⟨idJ, _, i, _, verJ, _, ver, _, payload, hp, hr⟩ := h
  rw [← hr]
  exact hp

/-- If the leftover members fail to decode as a payload, the whole
`Response` decode fails. -/
theorem response_fromJson_none (members : List (String × Json))
    (h : ResponsePayload.fromMembers (restMembers members) = none) :
    Response.fromJson (Json.obj members) = none := by
  cases hr : Response.fromJson (Json.obj members) with
  | none => rfl
  | some resp =>
    have := response_fromJson_payload members resp hr
    rw [h] at this
    exact absurd this (by simp)

/-- A member whose key is not one of the named fields survives into the
leftover members. -/
theorem mem_restMembers (members : List (String × Json)) (k : String) (v : Json)
    (hmem : (k, v) ∈ members) (h1 : k ≠ "id") (h2 : k ≠ "jsonrpc") :
    (k, v) ∈ restMembers members := by
  rw [restMembers, List.mem_filter]
  refine ⟨hmem, ?_⟩
  simp [h1, h2]

/-- Leftover members come from the wire object. -/
theorem restMembers_subset (members : List (String × Json)) (kv : String × Json)
    (h : kv ∈ restMembers members) : kv ∈ members :=
  (List.mem_filter.mp h).1

/-- Counterexample to C1 as stated: an object holding both `result` and
`error` does not fail — `FlatMapDeserializer` takes the first recognized
member (`result` here) and drops the other, so decoding succeeds. -/
theorem response_both_keys_accepted :
    Response.fromJson
        (Json.obj [("jsonrpc", Json.str "2.0"), ("result", Json.num 19),
          ("error", Json.obj [("code", Json.num 1), ("message", Json.str "x")]),
          ("id", Json.num 1)]) =
      some { id := Id.Number 1, jsonrpc := "2.0",
             payload := ResponsePayload.Result (Json.num 19) } := by
  rfl

/-- C1 (amended): payload discrimination by field presence, for a wire
object (pairwise-distinct keys). When decoding succeeds, an object holding
`result` and not `error` always yields `ResponsePayload::Result` with that
value, and one holding `error` and not `result` always yields
`ResponsePayload::Error` with the decoded `JsonRpcError`; an object holding
neither never decodes; an object holding both does not fail on that
account — its payload comes from whichever of the two members the flatten
buffer yields first, the other being ignored. -/
theorem response_payload_discrimination (members : List (String × Json))
    (hnd : (members.map Prod.fst).Nodup) :
    (∀ resp, Response.fromJson (Json.obj members) = some resp →
      (∀ v, ("result", v) ∈ members → ¬ hasKey members "error" →
        resp.payload = ResponsePayload.Result v) ∧
      (∀ ej, ("error", ej) ∈ members → ¬ hasKey members "result" →
        ∃ err, JsonRpcError.fromJson ej = some err ∧
          resp.payload = ResponsePayload.Error err) ∧
      (∀ v ej, ("result", v) ∈ members → ("error", ej) ∈ members →
        resp.payload = ResponsePayload.Result v ∨
        ∃ err, JsonRpcError.fromJson ej = some err ∧
          resp.payload = ResponsePayload.Error err)) ∧
    (¬ hasKey members "result" ∧ ¬ hasKey members "error" →
      Response.fromJson (Json.obj members) = none) := by
  have hrnd := restMembers_keys_nodup members hnd
  constructor
  · intro resp hdec
    have hp := response_fromJson_payload members resp hdec
    refine ⟨?_, ?_, ?_⟩
    · intro v hv hnoerr
      rcases fromMembers_sound _ _ hp with ⟨v', hv', hpv⟩ | ⟨ej, _, hej, _, _⟩
      · have hv2 : ("result", v) ∈ restMembers members :=
          mem_restMembers members "result" v hv (by decide) (by decide)
        rw [hpv, nodup_keys_unique _ hrnd "result" v' v hv' hv2]
      · exact absurd ⟨ej, restMembers_subset members _ hej⟩ hnoerr
    · intro ej hej hnores
      rcases fromMembers_sound _ _ hp with ⟨v', hv', _⟩ | ⟨ej', err, hej', herr, hperr⟩
      · exact absurd ⟨v', restMembers_subset members _ hv'⟩ hnores
      · have hej2 : ("error", ej) ∈ restMembers members :=
          mem_restMembers members "error" ej hej (by decide) (by decide)
        have heq : ej' = ej := nodup_keys_unique _ hrnd "error" ej' ej hej' hej2
        exact ⟨err, heq ▸ herr, hperr⟩
    · intro v ej hv hej
      rcases fromMembers_sound _ _ hp with ⟨v', hv', hpv⟩ | ⟨ej', err, hej', herr, hperr⟩
      · left
        have hv2 : ("result", v) ∈ restMembers members :=
          mem_restMembers members "result" v hv (by decide) (by decide)
        rw [hpv, nodup_keys_unique _ hrnd "result" v' v hv' hv2]
      · right
        have hej2 : ("error", ej) ∈ restMembers members :=
          mem_restMembers members "error" ej hej (by decide) (by decide)
        have heq : ej' = ej := nodup_keys_unique _ hrnd "error" ej' ej hej' hej2
        exact ⟨err, heq ▸ herr, hperr⟩
  · rintro ⟨hnores, hnoerr⟩
    apply response_fromJson_none
    apply fromMembers_none_of_unrecognized
    rintro ⟨k, v⟩ hkv
    constructor
    · rintro rfl
      exact hnores ⟨v, restMembers_subset members _ hkv⟩
    · rintro rfl
      exact hnoerr ⟨v, restMembers_subset members _ hkv⟩

/-- Witness for C1: a result-only object decodes to a `Result` payload, and
an object with neither `result` nor `error` fails to decode. -/
theorem response_payload_discrimination_witness :
    ({ id := Id.Number 1, jsonrpc := "2.0",
       payload := ResponsePayload.Result (Json.num 19) } : Response).payload =
        ResponsePayload.Result (Json.num 19) ∧
    Response.fromJson (Json.obj [("jsonrpc", Json.str "2.0"), ("id", Json.num 1)]) =
      none := by
  constructor
  · exact
      (((response_payload_discrimination
            [("jsonrpc", Json.str "2.0"), ("result", Json.num 19), ("id", Json.num 1)]
            (by decide)).1 _ (by rfl)).1) (Json.num 19)
        (List.Mem.tail _ (List.Mem.head _))
        (by rintro ⟨v, hv⟩; simp [Prod.ext_iff] at hv)
  · exact
      (response_payload_discrimination [("jsonrpc", Json.str "2.0"), ("id", Json.num 1)]
          (by decide)).2
        ⟨by rintro ⟨v, hv⟩; simp [Prod.ext_iff] at hv,
         by rintro ⟨v, hv⟩; simp [Prod.ext_iff] at hv⟩

/-- The enum scan skips unrecognized members: restricting the list to its
`result`/`error` members does not change the decoded payload. -/
theorem fromMembers_filter_recognized :
    ∀ (l : List (String × Json)),
      ResponsePayload.fromMembers (l.filter fun kv => recognizedKey kv.1) =
        ResponsePayload.fromMembers l
  | [] => rfl
  | (k, v) :: rest => by
    by_cases hr : k = "result"
    · subst hr
      simp [List.filter, recognizedKey, ResponsePayload.fromMembers]
    · by_cases he : k = "error"
      · subst he
        simp [List.filter, recognizedKey, ResponsePayload.fromMembers]
      · have hrec : recognizedKey k = false := by
          simp [recognizedKey, hr, he]
        simp only [List.filter, hrec]
        rw [fromMembers_filter_recognized rest,
          ResponsePayload.fromMembers, if_neg hr, if_neg he]

/-- Keeping only known keys does not disturb the lookup of a known key. -/
theorem getUnique_filter_known (members : List (String × Json)) (key : String)
    (h : knownKey key = true) :
    getUnique (members.filter fun kv => knownKey kv.1) key =
      getUnique members key := by
  unfold getUnique
  rw [List.filter_filter]
  congr 1
  apply List.filter_congr
  intro kv _
  by_cases hk : kv.1 = key
  · subst hk
    simp [h]
  · simp [hk]

/-- Keeping only known keys does not disturb the decoded payload either:
both member lists restrict to the same `result`/`error` members. -/
theorem fromMembers_rest_filter_known (members : List (String × Json)) :
    ResponsePayload.fromMembers
        (restMembers (members.filter fun kv => knownKey kv.1)) =
      ResponsePayload.fromMembers (restMembers members) := by
  rw [← fromMembers_filter_recognized
      (restMembers (members.filter fun kv => knownKey kv.1)),
    ← fromMembers_filter_recognized (restMembers members)]
  congr 1
  unfold restMembers
  rw [List.filter_filter, List.filter_filter, List.filter_filter]
  apply List.filter_congr
  intro kv _
  by_cases hres : kv.1 = "result"
  · simp [hres, recognizedKey, knownKey]
  · by_cases herr : kv.1 = "error"
    · simp [herr, recognizedKey, knownKey]
    · simp [recognizedKey, hres, herr]

/-- Counterexample to C10 as stated: a complete success response carrying
one extra unknown key `"extra"` decodes successfully — `flatten` buffers
the unknown member and the enum scan ignores it — where the claim demands
failure. -/
theorem response_unknown_key_accepted :
    Response.fromJson
        (Json.obj [("jsonrpc", Json.str "2.0"), ("result", Json.num 19),
          ("id", Json.num 1), ("extra", Json.null)]) =
      some { id := Id.Number 1, jsonrpc := "2.0",
             payload := ResponsePayload.Result (Json.num 19) } := by
  rfl

/-- C10 (amended): `Response` decoding ignores unrecognized top-level keys
rather than rejecting them (`deny_unknown_fields` is unsupported with
`flatten`): decoding any wire object gives exactly the same outcome as
decoding it with every unknown key removed, so extra unknown keys never
cause a failure. -/
theorem response_ignores_unknown_keys (members : List (String × Json)) :
    Response.fromJson (Json.obj (members.filter fun kv => knownKey kv.1)) =
      Response.fromJson (Json.obj members) := by
  simp only [Response.fromJson]
  rw [getUnique_filter_known members "id" (by decide),
    getUnique_filter_known members "jsonrpc" (by decide),
    fromMembers_rest_filter_known members]

end JsonRpc
